import Mathlib

/-!
Shallow embedding of the workflow analysis and naming engine of the
Semantic-Keyword-Builder repository (files `new_workflow_analyzer.py`,
`auto_add_workflow.py`, `shared_utils.py`), together with theorems that
settle the specification claims about it.

String-handling convention: the Python source operates on Unicode
strings, but every character class it uses (`str.lower`, `str.title`,
regex `\d` and `\w`) agrees with the ASCII tables on code points below
0x80.  The embedding uses Lean `Char`/`String` with the ASCII versions
of these operations; where a claim needs behaviour on non-ASCII code
points (the `\w` class of `re.sub`), the embedding models the Unicode
word-character class exactly on the Latin-1 range (code points < 0x100)
and theorems restrict their scope accordingly.
-/

/-- Python substring test `pat in s`, on the underlying character lists. -/
def strContains (s pat : String) : Bool :=
  decide (pat.toList <:+: s.toList)

/-- Python `s.startswith(pat)`, on the underlying character lists. -/
def strStartsWith (s pat : String) : Bool :=
  decide (pat.toList <+: s.toList)

/-- Python `s.endswith(pat)`, on the underlying character lists. -/
def strEndsWith (s pat : String) : Bool :=
  decide (pat.toList <:+ s.toList)

/-- Python `str.lower()` for ASCII strings. -/
def pyLower (s : String) : String :=
  String.mk (s.toList.map Char.toLower)

/-- Python `str.replace(pat, rep)` on character lists: every
non-overlapping occurrence of `pat` is replaced left to right.  The
source only calls `replace` with non-empty patterns; an empty pattern is
mapped to the identity here. -/
def listReplaceFuel (pat rep : List Char) : ℕ → List Char → List Char
  | 0, _ => []
  | _ + 1, [] => []
  | fuel + 1, c :: cs =>
    if pat ≠ [] ∧ pat <+: (c :: cs) then
      rep ++ listReplaceFuel pat rep fuel ((c :: cs).drop pat.length)
    else
      c :: listReplaceFuel pat rep fuel cs

/-- Python `str.replace(pat, rep)` on a character list; the fuel
`l.length` is an upper bound on the number of recursion steps, so the
fuel never runs out (for a non-empty pattern each step consumes at least
one character). -/
def listReplace (pat rep l : List Char) : List Char :=
  listReplaceFuel pat rep l.length l

/-- Python `str.replace(pat, rep)`. -/
def pyReplace (s pat rep : String) : String :=
  String.mk (listReplace pat.toList rep.toList s.toList)

/-- Python string comparison: lexicographic by code point (the order of
`sorted` on a list of strings). -/
def pyStrLe (a b : String) : Prop :=
  a.toList ≤ b.toList

instance : DecidableRel pyStrLe :=
  fun a b => inferInstanceAs (Decidable (a.toList ≤ b.toList))

instance : IsTrans String pyStrLe :=
  ⟨fun _ _ _ h1 h2 => le_trans h1 h2⟩

instance : IsAntisymm String pyStrLe :=
  ⟨fun a b h1 h2 => by
    have h := le_antisymm h1 h2
    cases a; cases b; simp_all [String.toList]⟩

instance : IsTotal String pyStrLe :=
  ⟨fun a b => le_total a.toList b.toList⟩

/-- Python `str.title()` for ASCII strings: the first character of every
maximal run of letters is upper-cased, the remaining letters of each run
are lower-cased, non-letters are kept. -/
def pyTitleGo : Bool → List Char → List Char
  | _, [] => []
  | prevAlpha, c :: cs =>
    (if c.isAlpha then (if prevAlpha then c.toLower else c.toUpper) else c)
      :: pyTitleGo c.isAlpha cs

/-- Python `str.title()` for ASCII strings. -/
def pyTitle (s : String) : String :=
  String.mk (pyTitleGo false s.toList)

/-- Python `os.path.basename` for POSIX paths: everything after the last slash. -/
def pyBasename (s : String) : String :=
  String.mk ((s.toList.reverse.takeWhile (fun c => c ≠ '/')).reverse)

/-! ## Numbering Authority

`NewWorkflowAnalyzer.__init__` scans the corpus directory and stores
`existing_numbers : Set[int]` and `next_number : int`
(`new_workflow_analyzer.py`, lines 17-43). -/

/-- Model of `re.match(r'(\d{4})_', filename)` in `_get_existing_numbers`: the
filename must start with exactly four ASCII digits followed by an
underscore; the value of the four digits is returned. -/
def parseSeqNumber (filename : String) : Option ℕ :=
  match filename.toList with
  | a :: b :: c :: d :: '_' :: _ =>
    if a.isDigit && b.isDigit && c.isDigit && d.isDigit then
      some (((a.toNat - '0'.toNat) * 1000) + ((b.toNat - '0'.toNat) * 100) +
            ((c.toNat - '0'.toNat) * 10) + (d.toNat - '0'.toNat))
    else none
  | _ => none

/-- Model of `_get_existing_numbers`: collect the sequence numbers of all `*.json`
files of the corpus directory (the `glob` pattern restricts to names
ending in `.json`). -/
def getExistingNumbers (files : List String) : Finset ℕ :=
  (files.filter (fun f => strEndsWith f ".json")).foldr
    (fun f s =>
      match parseSeqNumber f with
      | some n => insert n s
      | none => s) ∅

/-- Model of `_get_next_available_number`: `1` for an empty registry, otherwise
`max(existing_numbers) + 1`.  Python's `max` over a non-empty set of
naturals is the fold of `max` seeded with `0`. -/
def getNextAvailableNumber (s : Finset ℕ) : ℕ :=
  if s = ∅ then 1 else s.fold max 0 id + 1

/-- The in-process state of `NewWorkflowAnalyzer`: the scanned number set
and the cached next number. -/
structure AnalyzerState where
  existingNumbers : Finset ℕ
  nextNumber : ℕ
  deriving DecidableEq

/-- Model of `NewWorkflowAnalyzer.__init__` on a corpus directory listing. -/
def initAnalyzer (files : List String) : AnalyzerState :=
  let e := getExistingNumbers files
  ⟨e, getNextAvailableNumber e⟩

/-- Reading `self.next_number` (the spec's `peekNext`). -/
def peekNext (st : AnalyzerState) : ℕ :=
  st.nextNumber

/-- The commit step of `AutoWorkflowAdder.add_workflow` (lines 96-98):
`existing_numbers.add(n)` followed by recomputing `next_number`. -/
def commitNumber (st : AnalyzerState) (n : ℕ) : AnalyzerState :=
  let e := insert n st.existingNumbers
  ⟨e, getNextAvailableNumber e⟩

/-- The registry invariant of the specification: `nextNumber` is
`max(usedNumbers) + 1` for a non-empty registry and `1` for an empty one,
and `nextNumber` is never among the used numbers. -/
def RegistryInv (st : AnalyzerState) : Prop :=
  st.nextNumber ∉ st.existingNumbers ∧
  ((st.existingNumbers = ∅ ∧ st.nextNumber = 1) ∨
    (∃ m ∈ st.existingNumbers,
      (∀ x ∈ st.existingNumbers, x ≤ m) ∧ st.nextNumber = m + 1))

/-! ## Node Graph Inspector and Service Classifier

From `new_workflow_analyzer.py`, `_analyze_nodes` (lines 88-166), and
`shared_utils.py` (`SERVICE_MAPPING`, `UTILITY_NODES`,
`get_clean_service_name`). -/

/-- A node descriptor: the analyzer reads `node.get('type', '')` and the
truthiness of `node.get('credentials')`. -/
structure Node where
  type : Option String := none
  credentials : Bool := false
  deriving DecidableEq

/-- Model of `node.get('type', '')`. -/
def nodeTypeOf (n : Node) : String :=
  n.type.getD ""

/-- Lookup in an association-list model of a Python dict (comparison on
the underlying character lists so that it evaluates by reduction). -/
def lookupTable (t : List (String × String)) (k : String) : Option String :=
  match t.find? (fun p => decide (p.1.toList = k.toList)) with
  | some p => some p.2
  | none => none

/-- The inline `service_mapping` dict of `_analyze_nodes`
(`new_workflow_analyzer.py`, lines 110-153), in declaration order.  Note
the camel-case keys (`httpRequest`, `googleSheets`, `microsoftTeams`,
`googleCalendar`, `googleDrive`, `googleCloud`): the lookup probe is
lower-cased, so these entries can never match. -/
def service_mapping : List (String × String) :=
  [("webhook", "Webhook"), ("httpRequest", "HTTP"), ("cron", "Cron"),
   ("gmail", "Gmail"), ("slack", "Slack"), ("googleSheets", "GoogleSheets"),
   ("airtable", "Airtable"), ("notion", "Notion"), ("telegram", "Telegram"),
   ("discord", "Discord"), ("twitter", "Twitter"), ("github", "GitHub"),
   ("hubspot", "HubSpot"), ("salesforce", "Salesforce"), ("stripe", "Stripe"),
   ("shopify", "Shopify"), ("trello", "Trello"), ("asana", "Asana"),
   ("clickup", "ClickUp"), ("calendly", "Calendly"), ("zoom", "Zoom"),
   ("mattermost", "Mattermost"), ("microsoftTeams", "Teams"),
   ("googleCalendar", "GoogleCalendar"), ("googleDrive", "GoogleDrive"),
   ("dropbox", "Dropbox"), ("onedrive", "OneDrive"), ("aws", "AWS"),
   ("azure", "Azure"), ("googleCloud", "GCP"), ("postgresql", "PostgreSQL"),
   ("mysql", "MySQL"), ("mongodb", "MongoDB"), ("redis", "Redis"),
   ("elasticsearch", "Elasticsearch"), ("typeform", "Typeform"),
   ("mailchimp", "Mailchimp"), ("sendgrid", "SendGrid"), ("twilio", "Twilio"),
   ("openai", "OpenAI"), ("anthropic", "Anthropic"), ("replicate", "Replicate")]

/-- The `SERVICE_MAPPING` dict of `shared_utils.py` (lines 3-46): same
values, but every key lower-cased. -/
def SERVICE_MAPPING : List (String × String) :=
  [("webhook", "Webhook"), ("httprequest", "HTTP"), ("cron", "Cron"),
   ("gmail", "Gmail"), ("slack", "Slack"), ("googlesheets", "GoogleSheets"),
   ("airtable", "Airtable"), ("notion", "Notion"), ("telegram", "Telegram"),
   ("discord", "Discord"), ("twitter", "Twitter"), ("github", "GitHub"),
   ("hubspot", "HubSpot"), ("salesforce", "Salesforce"), ("stripe", "Stripe"),
   ("shopify", "Shopify"), ("trello", "Trello"), ("asana", "Asana"),
   ("clickup", "ClickUp"), ("calendly", "Calendly"), ("zoom", "Zoom"),
   ("mattermost", "Mattermost"), ("microsoftteams", "Teams"),
   ("googlecalendar", "GoogleCalendar"), ("googledrive", "GoogleDrive"),
   ("dropbox", "Dropbox"), ("onedrive", "OneDrive"), ("aws", "AWS"),
   ("azure", "Azure"), ("googlecloud", "GCP"), ("postgresql", "PostgreSQL"),
   ("mysql", "MySQL"), ("mongodb", "MongoDB"), ("redis", "Redis"),
   ("elasticsearch", "Elasticsearch"), ("typeform", "Typeform"),
   ("mailchimp", "Mailchimp"), ("sendgrid", "SendGrid"), ("twilio", "Twilio"),
   ("openai", "OpenAI"), ("anthropic", "Anthropic"), ("replicate", "Replicate")]

/-- The utility-node exclusion set (`utility_nodes` in `_analyze_nodes`,
`UTILITY_NODES` in `shared_utils.py`). -/
def utility_nodes : List String :=
  ["Set", "Function", "If", "Switch", "Merge", "StickyNote",
   "NoOp", "Code", "Execute", "Split", "Wait", "Stop"]

/-- Model of `shared_utils.get_clean_service_name` (lines 53-70). -/
def getCleanServiceName (raw_service_name : String) : Option String :=
  let normalized := pyLower raw_service_name
  let clean_service := (lookupTable SERVICE_MAPPING normalized).getD (pyTitle raw_service_name)
  if clean_service ∈ utility_nodes ∨ raw_service_name ∈ utility_nodes ∨
      pyTitle raw_service_name ∈ utility_nodes then
    none
  else
    some clean_service

/-- One iteration of the `for node in nodes` loop of `_analyze_nodes`:
the trigger classification is updated (Webhook and Scheduled branches set
it unconditionally, the Triggered branch only from `Manual`), and for a
vendor-namespaced type the cleaned service name is added unless it is a
utility node. -/
def analyzeNodesStep (acc : Finset String × String) (node : Node) :
    Finset String × String :=
  let node_type := nodeTypeOf node
  let lower := pyLower node_type
  let trigger :=
    if strContains lower "webhook" || strContains lower "http" then "Webhook"
    else if strContains lower "cron" || strContains lower "schedule" ||
        strContains lower "interval" then "Scheduled"
    else if strContains lower "trigger" && decide (acc.2 = "Manual") then "Triggered"
    else acc.2
  let services :=
    if strStartsWith node_type "n8n-nodes-base." then
      let service := pyReplace (pyReplace (pyReplace node_type "n8n-nodes-base." "")
        "Trigger" "") "trigger" ""
      let clean_service := (lookupTable service_mapping (pyLower service)).getD
        (pyTitle service)
      if clean_service ∈ utility_nodes then acc.1 else insert clean_service acc.1
    else acc.1
  (services, trigger)

/-- Model of `_analyze_nodes` (lines 88-166): fold of the per-node step starting
from the empty service set and the `Manual` classification. -/
def analyzeNodes (nodes : List Node) : Finset String × String :=
  nodes.foldl analyzeNodesStep (∅, "Manual")

/-- The `purpose_keywords` dict of `_determine_purpose` (lines 173-184),
in declaration order. -/
def purpose_keywords : List (String × List String) :=
  [("create", ["create", "add", "new", "generate", "build", "make"]),
   ("update", ["update", "modify", "change", "edit", "patch", "refresh"]),
   ("sync", ["sync", "synchronize", "mirror", "replicate", "match"]),
   ("send", ["send", "email", "message", "notify", "alert", "push"]),
   ("import", ["import", "load", "fetch", "get", "retrieve", "pull"]),
   ("export", ["export", "save", "backup", "archive", "download"]),
   ("monitor", ["monitor", "check", "watch", "track", "status", "health"]),
   ("process", ["process", "transform", "convert", "parse", "analyze"]),
   ("automate", ["automate", "workflow", "bot", "automation", "routine"]),
   ("manage", ["manage", "organize", "admin", "control", "handle"])]

/-- Model of `_determine_purpose` (lines 168-200). -/
def determinePurpose (name : String) (nodes : List Node) : String :=
  let name_lower := pyLower name
  match purpose_keywords.find? (fun p => p.2.any (fun k => strContains name_lower k)) with
  | some p => pyTitle p.1
  | none =>
    let node_types := nodes.map (fun n => pyLower (nodeTypeOf n))
    if node_types.any (fun nt => strContains nt "create" || strContains nt "add") then
      "Create"
    else if node_types.any (fun nt => strContains nt "update" || strContains nt "edit") then
      "Update"
    else if node_types.any (fun nt => strContains nt "send" || strContains nt "email" ||
        strContains nt "message") then
      "Send"
    else
      "Automation"

/-- Model of `_determine_complexity` (lines 202-209). -/
def determineComplexity (node_count : ℕ) : String :=
  if node_count ≤ 5 then "Simple"
  else if node_count ≤ 15 then "Standard"
  else "Complex"

/-- Model of `_has_credentials` (lines 211-216). -/
def hasCredentials (nodes : List Node) : Bool :=
  nodes.any (fun n => n.credentials)

/-! ## Filename Synthesizer

`_generate_filename` (`new_workflow_analyzer.py`, lines 218-246). -/

def string_toList_inj {a b : String} (h : a.toList = b.toList) : a = b := by
  cases a; cases b; simp_all [String.toList]

/-- Insertion into an ascending list under Python's string order. -/
def insertSorted (x : String) : List String → List String
  | [] => [x]
  | y :: ys => if x.toList ≤ y.toList then x :: y :: ys else y :: insertSorted x ys

/-- Insertion sort under Python's string order. -/
def insortList (l : List String) : List String :=
  l.foldr insertSorted []

def insertSorted_comm_of_lt {x y : String} (h : x.toList < y.toList)
    (l : List String) :
    insertSorted x (insertSorted y l) = insertSorted y (insertSorted x l) := by
  have hxy : x.toList ≤ y.toList := le_of_lt h
  have hyx : ¬y.toList ≤ x.toList := not_le.mpr h
  induction l with
  | nil =>
    simp only [insertSorted, if_pos hxy, if_neg hyx]
  | cons z zs ih =>
    by_cases hyz : y.toList ≤ z.toList
    · have hxz : x.toList ≤ z.toList := le_trans hxy hyz
      simp only [insertSorted, if_pos hyz, if_pos hxy, if_neg hyx, if_pos hxz]
    · by_cases hxz : x.toList ≤ z.toList
      · simp only [insertSorted, if_neg hyz, if_pos hxz, if_neg hyx]
      · simp only [insertSorted, if_neg hyz, if_neg hxz, ih]

def insertSorted_comm (x y : String) (l : List String) :
    insertSorted x (insertSorted y l) = insertSorted y (insertSorted x l) := by
  rcases lt_trichotomy x.toList y.toList with hlt | heq | hgt
  · exact insertSorted_comm_of_lt hlt l
  · rw [string_toList_inj heq]
  · exact (insertSorted_comm_of_lt hgt l).symm

/-- Model of `sorted(list(services))`: the canonical ascending listing of the
service set under Python's code-point string order, well defined on the
underlying multiset by commutativity of sorted insertion. -/
instance : LeftCommutative insertSorted :=
  ⟨insertSorted_comm⟩

def pySortedServices (s : Finset String) : List String :=
  Quot.liftOn s.val insortList (fun _ _ h => h.foldr_eq [])

/-- Python `f"{n:04d}"`: decimal representation left-padded with zeros
to at least four characters. -/
def zeroPad4 (n : ℕ) : String :=
  let s := toString n
  String.mk (List.replicate (4 - s.length) '0') ++ s

/-- The characters of the Latin-1 range (code points `0xAA`, `0xB5`,
`0xBA`, and `0xC0`-`0xFF` except `0xD7` and `0xF7`) that Python's
Unicode-aware regex class `\w` matches beyond ASCII. -/
def latin1WordExtra (c : Char) : Bool :=
  c.toNat = 0xAA || c.toNat = 0xB5 || c.toNat = 0xBA ||
  (0xC0 ≤ c.toNat && c.toNat ≤ 0xFF && c.toNat ≠ 0xD7 && c.toNat ≠ 0xF7)

/-- Python's regex class `\w` (Unicode mode), exact on code points below
`0x100`: ASCII letters, ASCII digits, the underscore, and the extra
Latin-1 word characters. -/
def pyWordChar (c : Char) : Bool :=
  c.isAlphanum || c = '_' || latin1WordExtra c

/-- The class kept by `re.sub(r'[^\w\-_]', '', filename)`: word
characters, the hyphen, and the underscore. -/
def keepChar (c : Char) : Bool :=
  pyWordChar c || c = '-' || c = '_'

/-- Model of `re.sub(r'_+', '_', filename)`: collapse each run of underscores to
a single underscore. -/
def collapseUnders : List Char → List Char
  | [] => []
  | [c] => [c]
  | c1 :: c2 :: rest =>
    if c1 = '_' ∧ c2 = '_' then collapseUnders (c2 :: rest)
    else c1 :: collapseUnders (c2 :: rest)

/-- Python `str.strip(c)`: remove every leading and trailing occurrence
of the character `c`. -/
def pyStrip (l : List Char) (c : Char) : List Char :=
  (((l.dropWhile (fun x => x = c)).reverse.dropWhile (fun x => x = c)).reverse)

/-- Model of `'_'.join(parts)` on character lists. -/
def joinUnders : List (List Char) → List Char
  | [] => []
  | [p] => p
  | p :: q :: ps => p ++ '_' :: joinUnders (q :: ps)

/-- The cleaning pipeline of `_generate_filename` (lines 242-244):
remove the characters outside `\w`, `-`, `_`; collapse underscore runs;
strip leading and trailing underscores. -/
def sanitizeBody (l : List Char) : List Char :=
  pyStrip (collapseUnders (l.filter keepChar)) '_'

/-- The token list of `_generate_filename` (lines 222-238): the
zero-padded number, up to two sorted services (`sorted(list(services))[:2]`,
with the fallback token `Manual` when empty), the purpose, and the
trigger unless it is `Manual` or `Triggered`. -/
def filenameParts (next_number : ℕ) (services : Finset String)
    (purpose trigger_type : String) : List (List Char) :=
  [(zeroPad4 next_number).toList] ++
  (if ((pySortedServices services).take 2).isEmpty then [("Manual" : String).toList]
   else ((pySortedServices services).take 2).map String.toList) ++
  [purpose.toList] ++
  (if trigger_type = "Manual" ∨ trigger_type = "Triggered" then []
   else [trigger_type.toList])

/-- Model of `_generate_filename` (lines 218-246): the tokens joined with
underscores, cleaned (lines 242-244), suffixed with `.json`. -/
def generateFilename (next_number : ℕ) (services : Finset String)
    (purpose trigger_type : String) : String :=
  String.mk (sanitizeBody (joinUnders
    (filenameParts next_number services purpose trigger_type)) ++ ".json".toList)

/-! ## Analysis Orchestrator

`analyze_workflow_file` (`new_workflow_analyzer.py`, lines 45-86).  The
outcome of `json.load` on the file bytes is a parameter of the
embedding: either a decode failure (`JSONDecodeError`/
`UnicodeDecodeError`) or a parsed JSON value. -/

/-- A parsed JSON document as far as the engine inspects it: either an
object (with the optional `name`, optional `nodes` list and presence of
`connections` as read by the engine), or a non-object value (array,
string, number, ...).  For a non-object, the engine only observes the
outcome of the containment tests `'nodes' in data` /
`'connections' in data` (which raise `TypeError` for numbers) and the
fact that attribute access `data.get` raises `AttributeError`. -/
inductive JValue where
  | obj (name : Option String) (nodes : Option (List Node)) (hasConnections : Bool)
  | nonObj (containsNodes containsConnections containmentRaises : Bool)
  deriving DecidableEq

/-- The outcome of `json.load` on the source file's bytes. -/
inductive ParseOutcome where
  | decodeError (msg : String)
  | parsed (v : JValue)
  deriving DecidableEq

/-- A Python exception escaping an engine operation. -/
inductive PyErr where
  | attributeError
  deriving DecidableEq

/-- The analysis dict of `analyze_workflow_file`: either the
`{success: False, error: ...}` shape or the full success shape. -/
inductive AnalysisResult where
  | failure (error : String)
  | success (original_filename suggested_filename workflow_name : String)
      (services : Finset String) (purpose trigger_type : String)
      (node_count next_number : ℕ) (complexity : String)
      (has_credentials : Bool) (integrations_count : ℕ)
  deriving DecidableEq

/-- The `success` field of the analysis dict. -/
def AnalysisResult.isSuccess : AnalysisResult → Bool
  | .failure _ => false
  | .success _ _ _ _ _ _ _ _ _ _ _ => true

/-- The `suggested_filename` field, when present. -/
def AnalysisResult.suggestedOf : AnalysisResult → Option String
  | .failure _ => none
  | .success _ sfn _ _ _ _ _ _ _ _ _ => some sfn

/-- The `workflow_name` field, when present. -/
def AnalysisResult.workflowNameOf : AnalysisResult → Option String
  | .failure _ => none
  | .success _ _ wn _ _ _ _ _ _ _ _ => some wn

/-- The `next_number` field, when present. -/
def AnalysisResult.nextNumberOf : AnalysisResult → Option ℕ
  | .failure _ => none
  | .success _ _ _ _ _ _ _ nn _ _ _ => some nn

/-- The `analysis.complexity` field, when present. -/
def AnalysisResult.complexityOf : AnalysisResult → Option String
  | .failure _ => none
  | .success _ _ _ _ _ _ _ _ cpx _ _ => some cpx

/-- Model of `analyze_workflow_file` (lines 45-86).  A decode failure is caught
and reported as `{success: False, error: ...}`; a parsed non-object
document raises `AttributeError` at `data.get('name', ...)`, which the
method does not catch; a parsed object is analyzed with the cached
`next_number` (the registry is only read, never written). -/
def analyzeWorkflowFile (st : AnalyzerState) (p : ParseOutcome)
    (file_path : String) : Except PyErr AnalysisResult :=
  match p with
  | .decodeError msg =>
    .ok (.failure ("Failed to read workflow file: " ++ msg))
  | .parsed (.nonObj _ _ _) => .error .attributeError
  | .parsed (.obj name nodes _) =>
    let original_filename := pyBasename file_path
    let workflow_name := name.getD (pyReplace original_filename ".json" "")
    let nodes := nodes.getD []
    let st_res := analyzeNodes nodes
    let purpose := determinePurpose workflow_name nodes
    let suggested_filename := generateFilename st.nextNumber st_res.1 purpose st_res.2
    .ok (.success original_filename suggested_filename workflow_name
      st_res.1 purpose st_res.2 nodes.length st.nextNumber
      (determineComplexity nodes.length) (hasCredentials nodes) st_res.1.card)

/-- The state-passing form of analysis: `analyze_workflow_file` contains
no assignment to `self.existing_numbers` or `self.next_number`, so the
analyzer state it returns is the one it was given. -/
def analyzeWorkflowFileS (st : AnalyzerState) (p : ParseOutcome)
    (file_path : String) : (Except PyErr AnalysisResult) × AnalyzerState :=
  (analyzeWorkflowFile st p file_path, st)

/-! ## Ingestion Coordinator

`AutoWorkflowAdder` (`auto_add_workflow.py`): `_validate_workflow_file`
(lines 26-46) and `add_workflow` (lines 48-118).  The filesystem is
modelled by the listing of the corpus directory (`corpus`), the
existence of the source path, and an oracle for the success of
`shutil.copy2`. -/

/-- Model of `'nodes' in data` and `'connections' in data` in the validator, for a
parsed value: key lookup for an object; for a non-object the observed
outcome (element containment for arrays, substring containment for
strings, `TypeError` for numbers — raised errors are reported through
`containmentRaises` and caught by the validator's blanket
`except Exception`). -/
def containsKeys : JValue → Option Bool
  | .obj _ nodes hasConnections => some (nodes.isSome && hasConnections)
  | .nonObj cn cc raises => if raises then none else some (cn && cc)

/-- Model of `_validate_workflow_file` (lines 26-46): returns `some error` when a
check fails, `none` when all checks pass. -/
def validateWorkflowFile (sourceExists : Bool) (file_path : String)
    (p : ParseOutcome) : Option String :=
  if ¬sourceExists then
    some ("File '" ++ file_path ++ "' not found.")
  else if ¬(strEndsWith file_path ".json") then
    some ("File '" ++ file_path ++ "' is not a JSON file.")
  else
    match p with
    | .decodeError msg =>
      some ("Error decoding JSON from '" ++ file_path ++ "': " ++ msg)
    | .parsed v =>
      match containsKeys v with
      | none => some ("Error reading file '" ++ file_path ++ "'.")
      | some true => none
      | some false =>
        some ("File '" ++ file_path ++
          "' is not a valid workflow file (missing 'nodes' or 'connections').")

/-- The result dict of `add_workflow`: a failure (`success: False` with
an error), a dry-run report, or a completed addition. -/
inductive AddResult where
  | failure (error : String)
  | dryRun (source_file target_file target_path : String) (analysis : AnalysisResult)
  | added (source_file target_file target_path : String) (analysis : AnalysisResult)
  deriving DecidableEq

/-- The `success` field of the `add_workflow` result. -/
def AddResult.isSuccess : AddResult → Bool
  | .failure _ => false
  | .dryRun _ _ _ _ => true
  | .added _ _ _ _ => true

/-- The `action` field of the `add_workflow` result, when present. -/
def AddResult.actionOf : AddResult → Option String
  | .failure _ => none
  | .dryRun _ _ _ _ => some "dry_run"
  | .added _ _ _ _ => some "added"

/-- Model of `add_workflow` (lines 48-118).  Parameters beyond the analyzer state:
whether the source path exists, the parse outcome of its bytes, the
corpus directory listing (for the `os.path.exists(target_path)`
collision check and for recording a completed copy), the flags, the
interactive confirmation answer, and whether `shutil.copy2` succeeds
(`copyErr` is the stringified exception used when it does not).  The
value returned is the result dict (or the uncaught exception escaping
from the analysis call), the analyzer state after the call, and the
corpus listing after the call. -/
def addWorkflow (st : AnalyzerState) (sourceExists : Bool)
    (source_file : String) (p : ParseOutcome) (corpus : List String)
    (workflows_dir : String) (auto_confirm dry_run confirmYes copyOk : Bool)
    (copyErr : String) :
    (Except PyErr AddResult) × AnalyzerState × List String :=
  match validateWorkflowFile sourceExists source_file p with
  | some err => (.ok (.failure err), st, corpus)
  | none =>
    match analyzeWorkflowFile st p source_file with
    | .error e => (.error e, st, corpus)
    | .ok (.failure err) => (.ok (.failure err), st, corpus)
    | .ok (.success ofn sfn wn svs pur trg nc nn cpx hc ic) =>
      let analysis := AnalysisResult.success ofn sfn wn svs pur trg nc nn cpx hc ic
      let target_path := workflows_dir ++ "/" ++ sfn
      if sfn ∈ corpus then
        (.ok (.failure ("Target file '" ++ sfn ++ "' already exists in repository.")),
          st, corpus)
      else if ¬auto_confirm ∧ ¬dry_run ∧ ¬confirmYes then
        (.ok (.failure "Operation cancelled by user."), st, corpus)
      else if dry_run then
        (.ok (.dryRun source_file sfn target_path analysis), st, corpus)
      else if copyOk then
        (.ok (.added source_file sfn target_path analysis),
          commitNumber st nn, sfn :: corpus)
      else
        (.ok (.failure ("Failed to copy file: " ++ copyErr)), st, corpus)

/-! ## Projections and concrete documents used by the theorems -/

/-- The `suggested_filename` of an analysis call that did not raise. -/
def exSuggested (r : Except PyErr AnalysisResult) : Option String :=
  match r with
  | .ok a => a.suggestedOf
  | .error _ => none

/-- The `workflow_name` of an analysis call that did not raise. -/
def exWorkflowName (r : Except PyErr AnalysisResult) : Option String :=
  match r with
  | .ok a => a.workflowNameOf
  | .error _ => none

/-- The `next_number` of an analysis call that did not raise. -/
def exNextNumber (r : Except PyErr AnalysisResult) : Option ℕ :=
  match r with
  | .ok a => a.nextNumberOf
  | .error _ => none

/-- The `analysis.complexity` of an analysis call that did not raise. -/
def exComplexity (r : Except PyErr AnalysisResult) : Option String :=
  match r with
  | .ok a => a.complexityOf
  | .error _ => none

/-- A character safe for a filesystem entry as the specification demands:
`[A-Za-z0-9_-]`. -/
def asciiSafe (c : Char) : Bool :=
  c.isAlphanum || c = '_' || c = '-'

/-- An ASCII string: every character below code point 128. -/
def asciiString (s : String) : Prop :=
  ∀ c ∈ s.toList, c.toNat < 128

instance (s : String) : Decidable (asciiString s) :=
  inferInstanceAs (Decidable (∀ c ∈ s.toList, c.toNat < 128))

/-- The node list of the end-to-end example: webhook, github, discord,
gmail, function. -/
def exampleNodes : List Node :=
  [⟨some "n8n-nodes-base.webhook", false⟩,
   ⟨some "n8n-nodes-base.github", false⟩,
   ⟨some "n8n-nodes-base.discord", false⟩,
   ⟨some "n8n-nodes-base.gmail", false⟩,
   ⟨some "n8n-nodes-base.function", false⟩]

/-- The service set extracted from the end-to-end example's nodes. -/
def exampleServices : Finset String :=
  (analyzeNodes exampleNodes).1

/-- The parsed document of the end-to-end example. -/
def exampleDoc : ParseOutcome :=
  .parsed (.obj (some "GitHub Issues to Discord and Email Notification System")
    (some exampleNodes) true)

/-! ## Claims -/

lemma fold_max_mem_le (s : Finset ℕ) (hs : s ≠ ∅) :
    s.fold max 0 id ∈ s ∧ ∀ x ∈ s, x ≤ s.fold max 0 id := by
  induction s using Finset.induction_on with
  | empty => exact absurd rfl hs
  | @insert a s ha ih =>
    rw [Finset.fold_insert ha]
    show max a (s.fold max 0 id) ∈ insert a s ∧
      ∀ x ∈ insert a s, x ≤ max a (s.fold max 0 id)
    by_cases h : s = ∅
    · subst h
      simp
    · obtain ⟨hmem, hle⟩ := ih h
      rcases le_total a (s.fold max 0 id) with hc | hc
      · refine ⟨?_, ?_⟩
        · rw [max_eq_right hc]
          exact Finset.mem_insert_of_mem hmem
        · intro x hx
          rcases Finset.mem_insert.mp hx with hx | hx
          · subst hx; rw [max_eq_right hc]; exact hc
          · rw [max_eq_right hc]; exact hle x hx
      · refine ⟨?_, ?_⟩
        · rw [max_eq_left hc]
          exact Finset.mem_insert_self a s
        · intro x hx
          rcases Finset.mem_insert.mp hx with hx | hx
          · subst hx; rw [max_eq_left hc]
          · rw [max_eq_left hc]; exact le_trans (hle x hx) hc

lemma registryInv_of_next (s : Finset ℕ) :
    RegistryInv ⟨s, getNextAvailableNumber s⟩ := by
  by_cases h : s = ∅
  · subst h
    exact ⟨by simp, Or.inl ⟨rfl, by simp [getNextAvailableNumber]⟩⟩
  · obtain ⟨hmem, hle⟩ := fold_max_mem_le s h
    constructor
    · intro hcon
      have := hle _ hcon
      simp only [getNextAvailableNumber, if_neg h] at this
      omega
    · refine Or.inr ⟨s.fold max 0 id, hmem, hle, ?_⟩
      simp [getNextAvailableNumber, if_neg h]

/-- C1: after initialization from any corpus directory and after every
commit of a number, the registry satisfies `nextNumber = max(usedNumbers) + 1`
when `usedNumbers` is non-empty and `nextNumber = 1` when it is empty
(hence `nextNumber` is never in `usedNumbers`); for a corpus with used
numbers `{1, 2, 5}`, `peekNext` returns `6`, and after `commit(6)`,
`peekNext` returns `7`. -/
theorem c1_registry_invariant :
    (∀ files : List String, RegistryInv (initAnalyzer files)) ∧
    (∀ (st : AnalyzerState) (n : ℕ), RegistryInv (commitNumber st n)) ∧
    (initAnalyzer ["0001_a.json", "0002_b.json", "0005_c.json"]).existingNumbers
      = {1, 2, 5} ∧
    peekNext (initAnalyzer ["0001_a.json", "0002_b.json", "0005_c.json"]) = 6 ∧
    peekNext (commitNumber
      (initAnalyzer ["0001_a.json", "0002_b.json", "0005_c.json"]) 6) = 7 := by
  exact ⟨fun files => registryInv_of_next _, fun st n => registryInv_of_next _,
    rfl, by decide, by decide⟩

/-- C1 witness: the invariant instantiated at concrete registries. -/
theorem c1_registry_invariant_witness :
    RegistryInv (initAnalyzer ["0001_a.json", "0002_b.json", "0005_c.json"]) ∧
    RegistryInv (commitNumber (initAnalyzer []) 1) :=
  ⟨c1_registry_invariant.1 _, c1_registry_invariant.2.1 _ 1⟩

/-- C2: analysis is a side-effect-free, idempotent read: running
`analyze_workflow_file` twice on the same document and analyzer state
yields the same result both times (in particular the same
`suggested_filename` and `next_number`), and the analyzer state is never
mutated (the state-passing form returns its input state). -/
theorem c2_analysis_idempotent
    (st : AnalyzerState) (p : ParseOutcome) (f : String) :
    (analyzeWorkflowFileS st p f).2 = st ∧
    (analyzeWorkflowFileS (analyzeWorkflowFileS st p f).2 p f).1
      = (analyzeWorkflowFileS st p f).1 ∧
    exSuggested (analyzeWorkflowFileS (analyzeWorkflowFileS st p f).2 p f).1
      = exSuggested (analyzeWorkflowFileS st p f).1 ∧
    exNextNumber (analyzeWorkflowFileS (analyzeWorkflowFileS st p f).2 p f).1
      = exNextNumber (analyzeWorkflowFileS st p f).1 :=
  ⟨rfl, rfl, rfl, rfl⟩

/-- C7: in the executed pipeline (`_analyze_nodes`), the node type
`n8n-nodes-base.httpRequest` does not resolve to `HTTP`: the inline
table's key `httpRequest` never matches the lower-cased probe, so the
title-cased fallback `Httprequest` is produced.  The repository's own
`shared_utils.get_clean_service_name` (lower-cased keys) resolves
`httprequest` to `HTTP`, `googlesheets` to `GoogleSheets` and `openai`
to `OpenAI` as the claim states, falls back to title case for unmapped
tokens, and yields `none` whenever the resolved candidate is a utility
node name. -/
theorem c7_service_lookup :
    pySortedServices (analyzeNodes [⟨some "n8n-nodes-base.httpRequest", false⟩]).1
      = ["Httprequest"] ∧
    lookupTable service_mapping "httprequest" = none ∧
    lookupTable SERVICE_MAPPING "httprequest" = some "HTTP" ∧
    getCleanServiceName "httprequest" = some "HTTP" ∧
    getCleanServiceName "googlesheets" = some "GoogleSheets" ∧
    getCleanServiceName "openai" = some "OpenAI" ∧
    getCleanServiceName "foobar" = some "Foobar" ∧
    (∀ raw : String,
      (lookupTable SERVICE_MAPPING (pyLower raw)).getD (pyTitle raw) ∈ utility_nodes →
      getCleanServiceName raw = none) := by
  refine ⟨by decide, by decide, by decide, by decide, by decide, by decide,
    by decide, ?_⟩
  intro raw h
  unfold getCleanServiceName
  rw [if_pos (Or.inl h)]

/-- C7 witness: the utility-exclusion clause applied at `Function`. -/
theorem c7_service_lookup_witness :
    getCleanServiceName "Function" = none :=
  c7_service_lookup.2.2.2.2.2.2.2 "Function" (by decide)

/-- C8 counterexample: a file whose bytes parse as a JSON array (a valid
non-object document) makes `analyze_workflow_file` raise an uncaught
`AttributeError` at `data.get('name', ...)` instead of returning a
`{success: False, error: ...}` result. -/
theorem c8_counterexample :
    analyzeWorkflowFile (initAnalyzer []) (.parsed (.nonObj false false false))
      "array.json" = .error .attributeError ∧
    ∀ msg : String,
      Except.error PyErr.attributeError ≠
        (.ok (.failure msg) : Except PyErr AnalysisResult) :=
  ⟨rfl, fun _ h => Except.noConfusion h⟩

/-- C8 amended: only undecodable or malformed bytes yield the structured
`{success: False, error: ...}` analysis result; bytes that parse to a
non-object value (array, number, string) make `analyze_workflow_file`
raise an uncaught `AttributeError`.  The exception even escapes the
public ingestion operation: a non-object document that satisfies the
validator's containment checks (such as the JSON array
`["nodes", "connections"]`, for which Python's `in` is element
containment) passes `_validate_workflow_file`, and `add_workflow` calls
the analysis with no surrounding handler, so the `AttributeError`
propagates raw out of `add_workflow` with the analyzer state and the
corpus unchanged. -/
theorem c8_nonobject_raises
    (st : AnalyzerState) (cn cc cr : Bool) (f msg : String)
    (corpus : List String) (wdir source : String)
    (auto_confirm dry_run confirmYes copyOk : Bool) (copyErr : String)
    (hjson : strEndsWith source ".json" = true) :
    analyzeWorkflowFile st (.parsed (.nonObj cn cc cr)) f
      = .error .attributeError ∧
    analyzeWorkflowFile st (.decodeError msg) f
      = .ok (.failure ("Failed to read workflow file: " ++ msg)) ∧
    addWorkflow st true source (.parsed (.nonObj true true false)) corpus wdir
        auto_confirm dry_run confirmYes copyOk copyErr
      = (.error .attributeError, st, corpus) := by
  refine ⟨rfl, rfl, ?_⟩
  rw [addWorkflow]
  have hv : validateWorkflowFile true source (.parsed (.nonObj true true false))
      = none := by
    simp [validateWorkflowFile, containsKeys, hjson]
  rw [hv]
  rfl

/-- C8 witness: the uncaught `AttributeError` escaping `add_workflow` at
a concrete array document that passes validation. -/
theorem c8_nonobject_raises_witness :
    addWorkflow (initAnalyzer []) true "array.json"
        (.parsed (.nonObj true true false)) [] "workflows" true false false
        true "" = (.error .attributeError, initAnalyzer [], []) :=
  (c8_nonobject_raises (initAnalyzer []) false false false "array.json" "m"
    [] "workflows" "array.json" true false false true "" (by decide)).2.2

/-- C9 counterexample: the end-to-end example document has five nodes,
and `_determine_complexity` maps a node count of at most five to
`Simple`, not `Standard`. -/
theorem c9_counterexample :
    exComplexity (analyzeWorkflowFile (initAnalyzer []) exampleDoc
      "new_workflow.json") = some "Simple" ∧
    determineComplexity 5 = "Simple" ∧
    ("Simple" : String) ≠ "Standard" :=
  ⟨rfl, rfl, by decide⟩

/-- C9 amended: analyzing the end-to-end example document against an
empty corpus yields services `{Discord, GitHub, Gmail, Webhook}`
(supersets of the claimed four), trigger type `Webhook`, node count `5`,
complexity `Simple` (by the `≤ 5 → Simple` rule; the claim's `Standard`
contradicts it), next sequence number `1`, and suggested filename
`0001_Discord_GitHub_Send_Webhook.json` (the two lexicographically
smallest services `Discord`, `GitHub`, sorted, then purpose and
trigger). -/
theorem c9_end_to_end :
    analyzeWorkflowFile (initAnalyzer []) exampleDoc "new_workflow.json" =
      .ok (.success "new_workflow.json" "0001_Discord_GitHub_Send_Webhook.json"
        "GitHub Issues to Discord and Email Notification System" exampleServices
        "Send" "Webhook" 5 1 "Simple" false 4) ∧
    pySortedServices exampleServices = ["Discord", "GitHub", "Gmail", "Webhook"] ∧
    strStartsWith "0001_Discord_GitHub_Send_Webhook.json" "0001_Discord_GitHub_"
      = true ∧
    strEndsWith "0001_Discord_GitHub_Send_Webhook.json" ".json" = true :=
  ⟨rfl, by decide, by decide, by decide⟩

/-- C10: when the document has no `name` member, the reported
`workflow_name` is the original filename with every occurrence of the
substring `.json` removed, so `a.json.backup.json` yields `a.backup`. -/
theorem c10_workflow_name
    (st : AnalyzerState) (nodesOpt : Option (List Node)) (hasC : Bool)
    (file_path : String) :
    exWorkflowName (analyzeWorkflowFile st (.parsed (.obj none nodesOpt hasC))
      file_path) = some (pyReplace (pyBasename file_path) ".json" "") ∧
    pyReplace "a.json.backup.json" ".json" "" = "a.backup" ∧
    exWorkflowName (analyzeWorkflowFile (initAnalyzer [])
      (.parsed (.obj none (some []) true)) "a.json.backup.json")
      = some "a.backup" :=
  ⟨rfl, by decide, by decide⟩

/-- C4 counterexample: a node list containing both a webhook-type and a
cron-type node is classified `Scheduled`, not `Webhook`, when the cron
node comes last — the Scheduled branch of `_analyze_nodes` overwrites
the classification unconditionally. -/
theorem c4_counterexample :
    (analyzeNodes [⟨some "n8n-nodes-base.webhook", false⟩,
      ⟨some "n8n-nodes-base.cron", false⟩]).2 = "Scheduled" ∧
    ("Scheduled" : String) ≠ "Webhook" :=
  ⟨by decide, by decide⟩

/-- C4 amended: per node, the webhook/http branch sets the
classification to `Webhook` unconditionally and the
cron/schedule/interval branch sets it to `Scheduled` unconditionally
(only `Triggered` is restricted to raising from `Manual`); hence the
classification of a list with both a cron-type and a webhook-type node
depends on their order: `Webhook` when the webhook node comes last,
`Scheduled` when the cron node comes last. -/
theorem c4_trigger_priority :
    (∀ (nodes : List Node) (n : Node),
      (strContains (pyLower (nodeTypeOf n)) "webhook" = true ∨
        strContains (pyLower (nodeTypeOf n)) "http" = true) →
      (analyzeNodes (nodes ++ [n])).2 = "Webhook") ∧
    (∀ (nodes : List Node) (n : Node),
      strContains (pyLower (nodeTypeOf n)) "webhook" = false →
      strContains (pyLower (nodeTypeOf n)) "http" = false →
      (strContains (pyLower (nodeTypeOf n)) "cron" = true ∨
        strContains (pyLower (nodeTypeOf n)) "schedule" = true ∨
        strContains (pyLower (nodeTypeOf n)) "interval" = true) →
      (analyzeNodes (nodes ++ [n])).2 = "Scheduled") ∧
    (analyzeNodes [⟨some "n8n-nodes-base.cron", false⟩,
      ⟨some "n8n-nodes-base.webhook", false⟩]).2 = "Webhook" ∧
    (analyzeNodes [⟨some "n8n-nodes-base.webhook", false⟩,
      ⟨some "n8n-nodes-base.cron", false⟩]).2 = "Scheduled" := by
  refine ⟨?_, ?_, by decide, by decide⟩
  · intro nodes n h
    rw [analyzeNodes, List.foldl_append]
    show (analyzeNodesStep _ n).2 = "Webhook"
    rcases h with h | h <;> simp [analyzeNodesStep, h]
  · intro nodes n h1 h2 h
    rw [analyzeNodes, List.foldl_append]
    show (analyzeNodesStep _ n).2 = "Scheduled"
    rcases h with h | h | h <;> simp [analyzeNodesStep, h1, h2, h]

/-- C4 witness: the unconditional branches applied at concrete nodes. -/
theorem c4_trigger_priority_witness :
    (analyzeNodes ([⟨some "n8n-nodes-base.cron", false⟩] ++
      [⟨some "n8n-nodes-base.webhook", false⟩])).2 = "Webhook" ∧
    (analyzeNodes ([⟨some "n8n-nodes-base.webhook", false⟩] ++
      [⟨some "n8n-nodes-base.cron", false⟩])).2 = "Scheduled" :=
  ⟨c4_trigger_priority.1 _ _ (Or.inl (by decide)),
    c4_trigger_priority.2.1 _ _ (by decide) (by decide) (Or.inl (by decide))⟩

lemma validate_passes (source : String) (hjson : strEndsWith source ".json" = true)
    (name : Option String) (nodesOpt : Option (List Node))
    (hnodes : nodesOpt.isSome = true) :
    validateWorkflowFile true source (.parsed (.obj name nodesOpt true)) = none := by
  simp [validateWorkflowFile, containsKeys, hjson, hnodes]

lemma commitNumber_peek (st : AnalyzerState) (hinv : RegistryInv st) :
    (commitNumber st st.nextNumber).nextNumber = st.nextNumber + 1 := by
  obtain ⟨hnot, hcases⟩ := hinv
  show getNextAvailableNumber (insert st.nextNumber st.existingNumbers)
    = st.nextNumber + 1
  have hne : insert st.nextNumber st.existingNumbers ≠ ∅ := by
    simp
  rw [getNextAvailableNumber, if_neg hne, Finset.fold_insert hnot]
  show max st.nextNumber (st.existingNumbers.fold max 0 id) + 1
    = st.nextNumber + 1
  rcases hcases with ⟨hemp, hone⟩ | ⟨m, hm, hle, hnext⟩
  · rw [hemp]
    simp
  · have hsne : st.existingNumbers ≠ ∅ := fun hc => by
      rw [hc] at hm
      exact absurd hm (Finset.not_mem_empty m)
    obtain ⟨hfmem, hfle⟩ := fold_max_mem_le st.existingNumbers hsne
    have hfold : st.existingNumbers.fold max 0 id = m :=
      le_antisymm (hle _ hfmem) (hfle _ hm)
    rw [hfold, hnext, max_eq_left (Nat.le_succ m)]

/-- C3: the sequence number is committed only after the copy succeeds:
for a validated source whose analysis succeeds and whose target is not
yet in the corpus, a failing copy returns the structured
`Failed to copy file` result and leaves the analyzer state and the
corpus unchanged, while a successful copy registers the number so that
`peekNext` advances by one and adds the target to the corpus. -/
theorem c3_commit_only_after_copy
    (st : AnalyzerState) (hinv : RegistryInv st)
    (source wdir copyErr : String) (confirmYes : Bool)
    (name : Option String) (nodesOpt : Option (List Node)) (corpus : List String)
    (hjson : strEndsWith source ".json" = true)
    (hnodes : nodesOpt.isSome = true)
    (ofn sfn wn : String) (svs : Finset String) (pur trg : String)
    (nc nn : ℕ) (cpx : String) (hc : Bool) (ic : ℕ)
    (hp : analyzeWorkflowFile st (.parsed (.obj name nodesOpt true)) source =
      .ok (.success ofn sfn wn svs pur trg nc nn cpx hc ic))
    (hcol : sfn ∉ corpus) :
    addWorkflow st true source (.parsed (.obj name nodesOpt true)) corpus wdir
        true false confirmYes false copyErr =
      (.ok (.failure ("Failed to copy file: " ++ copyErr)), st, corpus) ∧
    addWorkflow st true source (.parsed (.obj name nodesOpt true)) corpus wdir
        true false confirmYes true copyErr =
      (.ok (.added source sfn (wdir ++ "/" ++ sfn)
          (.success ofn sfn wn svs pur trg nc nn cpx hc ic)),
        commitNumber st st.nextNumber, sfn :: corpus) ∧
    peekNext (addWorkflow st true source (.parsed (.obj name nodesOpt true))
        corpus wdir true false confirmYes true copyErr).2.1
      = peekNext st + 1 ∧
    peekNext st ∈ (addWorkflow st true source (.parsed (.obj name nodesOpt true))
        corpus wdir true false confirmYes true copyErr).2.1.existingNumbers := by
  have hnn : nn = st.nextNumber := by
    simp only [analyzeWorkflowFile, Except.ok.injEq, AnalysisResult.success.injEq] at hp
    exact hp.2.2.2.2.2.2.2.1.symm
  have hred : ∀ copyOk : Bool,
      addWorkflow st true source (.parsed (.obj name nodesOpt true)) corpus wdir
        true false confirmYes copyOk copyErr =
      (if copyOk then
        (.ok (.added source sfn (wdir ++ "/" ++ sfn)
            (.success ofn sfn wn svs pur trg nc nn cpx hc ic)),
          commitNumber st nn, sfn :: corpus)
       else
        (.ok (.failure ("Failed to copy file: " ++ copyErr)), st, corpus)) := by
    intro copyOk
    rw [addWorkflow, validate_passes source hjson name nodesOpt hnodes, hp]
    simp only [if_neg hcol]
    norm_num
  refine ⟨by rw [hred false]; rfl, ?_, ?_, ?_⟩
  · rw [hred true, hnn]
    rfl
  · rw [hred true]
    show (commitNumber st nn).nextNumber = st.nextNumber + 1
    rw [hnn]
    exact commitNumber_peek st hinv
  · rw [hred true]
    show st.nextNumber ∈ (commitNumber st nn).existingNumbers
    rw [hnn]
    exact Finset.mem_insert_self _ _

/-- C3 witness: the two copy outcomes at a concrete validated source and
an empty corpus. -/
theorem c3_commit_only_after_copy_witness :
    addWorkflow (initAnalyzer []) true "wf.json" (.parsed (.obj none (some []) true))
        [] "workflows" true false false false "disk full" =
      (.ok (.failure ("Failed to copy file: " ++ "disk full")),
        initAnalyzer [], []) ∧
    peekNext (addWorkflow (initAnalyzer []) true "wf.json"
        (.parsed (.obj none (some []) true)) [] "workflows"
        true false false true "disk full").2.1 = peekNext (initAnalyzer []) + 1 :=
  ⟨(c3_commit_only_after_copy (initAnalyzer []) (registryInv_of_next _)
      "wf.json" "workflows" "disk full" false none (some []) []
      (by decide) (by decide) "wf.json" "0001_Manual_Automation.json" "wf" ∅
      "Automation" "Manual" 0 1 "Simple" false 0 rfl (by decide)).1,
   (c3_commit_only_after_copy (initAnalyzer []) (registryInv_of_next _)
      "wf.json" "workflows" "disk full" false none (some []) []
      (by decide) (by decide) "wf.json" "0001_Manual_Automation.json" "wf" ∅
      "Automation" "Manual" 0 1 "Simple" false 0 rfl (by decide)).2.2.1⟩

/-- C5 counterexample: a source that passes validation but whose
synthesized target already exists in the corpus directory fails with the
`already exists` error even under `dry_run=True` — the collision check
of `add_workflow` runs before the dry-run branch, not after it as the
claim's state machine places it. -/
theorem c5_counterexample :
    validateWorkflowFile true "wf.json" (.parsed (.obj none (some []) true))
      = none ∧
    (addWorkflow (initAnalyzer []) true "wf.json"
        (.parsed (.obj none (some []) true)) ["0001_Manual_Automation.json"]
        "workflows" true true false true "").1 =
      .ok (.failure
        "Target file '0001_Manual_Automation.json' already exists in repository.") ∧
    AddResult.isSuccess (.failure
      "Target file '0001_Manual_Automation.json' already exists in repository.")
      = false :=
  ⟨rfl, rfl, rfl⟩

/-- C5 amended: for every validated source whose analysis succeeds and
whose synthesized target is not already present in the corpus directory,
`dry_run=True` returns success with action `dry_run` and the filename
that would be used, performing no copy and no number commit (corpus and
analyzer state unchanged) for any combination of `auto_confirm` and
confirmation answer (the interactive confirmation is skipped under
dry-run); the collision check, however, runs before the dry-run branch. -/
theorem c5_dry_run
    (st : AnalyzerState) (source wdir copyErr : String)
    (auto_confirm confirmYes copyOk : Bool)
    (name : Option String) (nodesOpt : Option (List Node)) (corpus : List String)
    (hjson : strEndsWith source ".json" = true)
    (hnodes : nodesOpt.isSome = true)
    (ofn sfn wn : String) (svs : Finset String) (pur trg : String)
    (nc nn : ℕ) (cpx : String) (hc : Bool) (ic : ℕ)
    (hp : analyzeWorkflowFile st (.parsed (.obj name nodesOpt true)) source =
      .ok (.success ofn sfn wn svs pur trg nc nn cpx hc ic))
    (hcol : sfn ∉ corpus) :
    addWorkflow st true source (.parsed (.obj name nodesOpt true)) corpus wdir
        auto_confirm true confirmYes copyOk copyErr =
      (.ok (.dryRun source sfn (wdir ++ "/" ++ sfn)
          (.success ofn sfn wn svs pur trg nc nn cpx hc ic)),
        st, corpus) ∧
    AddResult.actionOf (.dryRun source sfn (wdir ++ "/" ++ sfn)
        (.success ofn sfn wn svs pur trg nc nn cpx hc ic)) = some "dry_run" ∧
    AddResult.isSuccess (.dryRun source sfn (wdir ++ "/" ++ sfn)
        (.success ofn sfn wn svs pur trg nc nn cpx hc ic)) = true := by
  refine ⟨?_, rfl, rfl⟩
  rw [addWorkflow, validate_passes source hjson name nodesOpt hnodes, hp]
  simp only [if_neg hcol]
  norm_num

/-- C5 witness: a concrete dry run against an empty corpus, with
`auto_confirm=False` and a declined confirmation answer. -/
theorem c5_dry_run_witness :
    addWorkflow (initAnalyzer []) true "wf.json"
        (.parsed (.obj none (some []) true)) [] "workflows"
        false true false true "" =
      (.ok (.dryRun "wf.json" "0001_Manual_Automation.json"
          ("workflows" ++ "/" ++ "0001_Manual_Automation.json")
          (.success "wf.json" "0001_Manual_Automation.json" "wf" ∅
            "Automation" "Manual" 0 1 "Simple" false 0)),
        initAnalyzer [], []) :=
  (c5_dry_run (initAnalyzer []) "wf.json" "workflows" "" false false true
    none (some []) [] (by decide) (by decide) "wf.json"
    "0001_Manual_Automation.json" "wf" ∅ "Automation" "Manual" 0 1 "Simple"
    false 0 rfl (by decide)).1

lemma collapseUnders_subset : ∀ (l : List Char), collapseUnders l ⊆ l := by
  intro l
  induction l with
  | nil => simp [collapseUnders]
  | cons c cs ih =>
    cases cs with
    | nil => simp [collapseUnders]
    | cons d ds =>
      by_cases h : c = '_' ∧ d = '_'
      · rw [collapseUnders, if_pos h]
        exact fun x hx => List.mem_cons_of_mem c (ih hx)
      · rw [collapseUnders, if_neg h]
        intro x hx
        rcases List.mem_cons.mp hx with hx | hx
        · exact hx ▸ List.mem_cons_self _ _
        · exact List.mem_cons_of_mem c (ih hx)

lemma pyStrip_subset (l : List Char) (c : Char) : pyStrip l c ⊆ l := by
  intro x hx
  unfold pyStrip at hx
  rw [List.mem_reverse] at hx
  have hx2 := (List.dropWhile_sublist _).subset hx
  rw [List.mem_reverse] at hx2
  exact (List.dropWhile_sublist _).subset hx2

lemma mem_sanitizeBody {x : Char} {l : List Char} (h : x ∈ sanitizeBody l) :
    keepChar x = true ∧ x ∈ l := by
  have h1 := pyStrip_subset _ _ h
  have h2 := collapseUnders_subset _ h1
  have h3 := List.mem_filter.mp h2
  exact ⟨h3.2, h3.1⟩

lemma mem_joinUnders {x : Char} :
    ∀ {ps : List (List Char)}, x ∈ joinUnders ps → x = '_' ∨ ∃ p ∈ ps, x ∈ p := by
  intro ps
  induction ps with
  | nil => simp [joinUnders]
  | cons p qs ih =>
    cases qs with
    | nil =>
      intro h
      exact Or.inr ⟨p, by simp, by simpa [joinUnders] using h⟩
    | cons q rs =>
      intro h
      rw [joinUnders] at h
      rcases List.mem_append.mp h with h | h
      · exact Or.inr ⟨p, by simp, h⟩
      · rcases List.mem_cons.mp h with h | h
        · exact Or.inl h
        · rcases ih h with h | ⟨r, hr, hxr⟩
          · exact Or.inl h
          · exact Or.inr ⟨r, List.mem_cons_of_mem _ hr, hxr⟩

lemma ascii_keep_asciiSafe {c : Char} (ha : c.toNat < 128)
    (hk : keepChar c = true) : asciiSafe c = true := by
  simp only [keepChar, pyWordChar, Bool.or_eq_true, decide_eq_true_eq] at hk
  rcases hk with (((h | h) | h) | h) | h
  · simp [asciiSafe, h]
  · simp [asciiSafe, h]
  · simp only [latin1WordExtra, Bool.or_eq_true, Bool.and_eq_true,
      decide_eq_true_eq] at h
    omega
  · simp [asciiSafe, h]
  · simp [asciiSafe, h]

lemma digit_asciiSafe {c : Char} (h : c.isDigit = true) : asciiSafe c = true := by
  simp [asciiSafe, Char.isAlphanum, h]

lemma digit_keep {c : Char} (h : c.isDigit = true) : keepChar c = true := by
  simp [keepChar, pyWordChar, Char.isAlphanum, h]

lemma digit_ne_underscore {c : Char} (h : c.isDigit = true) : c ≠ '_' := by
  intro hc
  subst hc
  simp [Char.isDigit] at h

lemma mem_insertSorted {x y : String} :
    ∀ {l : List String}, x ∈ insertSorted y l ↔ x = y ∨ x ∈ l := by
  intro l
  induction l with
  | nil => simp [insertSorted]
  | cons z zs ih =>
    by_cases h : y.toList ≤ z.toList
    · rw [insertSorted, if_pos h]
      simp
    · rw [insertSorted, if_neg h]
      simp only [List.mem_cons, ih]
      tauto

lemma mem_insortList {x : String} :
    ∀ {l : List String}, x ∈ insortList l ↔ x ∈ l := by
  intro l
  induction l with
  | nil => simp [insortList]
  | cons y ys ih =>
    show x ∈ insertSorted y (insortList ys) ↔ _
    rw [mem_insertSorted]
    simp [ih]

lemma mem_pySortedServices {x : String} {s : Finset String} :
    x ∈ pySortedServices s ↔ x ∈ s := by
  rcases s with ⟨m, hm⟩
  obtain ⟨l, rfl⟩ := Quotient.exists_rep m
  show x ∈ insortList l ↔ _
  rw [mem_insortList]
  rfl

lemma digitChar_good {m : ℕ} (h : m < 10) :
    (Nat.digitChar m).isDigit = true ∧ (Nat.digitChar m).toNat < 128 := by
  interval_cases m <;> exact ⟨by decide, by decide⟩

lemma toDigitsCore_good :
    ∀ (fuel n : ℕ) (acc : List Char),
      (∀ c ∈ acc, c.isDigit = true ∧ c.toNat < 128) →
      ∀ c ∈ Nat.toDigitsCore 10 fuel n acc, c.isDigit = true ∧ c.toNat < 128 := by
  intro fuel
  induction fuel with
  | zero => intro n acc hacc; exact hacc
  | succ fuel ih =>
    intro n acc hacc c hc
    rw [Nat.toDigitsCore] at hc
    have hd : ∀ x ∈ Nat.digitChar (n % 10) :: acc,
        x.isDigit = true ∧ x.toNat < 128 := by
      intro x hx
      rcases List.mem_cons.mp hx with hx | hx
      · exact hx ▸ digitChar_good (Nat.mod_lt n (by norm_num))
      · exact hacc x hx
    by_cases hz : n / 10 = 0
    · rw [if_pos hz] at hc
      exact hd c hc
    · rw [if_neg hz] at hc
      exact ih (n / 10) _ hd c hc

lemma toDigitsCore_len :
    ∀ (fuel n : ℕ) (acc : List Char) (k : ℕ), n < 10 ^ k →
      (Nat.toDigitsCore 10 fuel n acc).length ≤ max k 1 + acc.length := by
  intro fuel
  induction fuel with
  | zero =>
    intro n acc k _
    rw [Nat.toDigitsCore]
    omega
  | succ fuel ih =>
    intro n acc k hk
    rw [Nat.toDigitsCore]
    by_cases hz : n / 10 = 0
    · rw [if_pos hz]
      simp only [List.length_cons]
      omega
    · rw [if_neg hz]
      have h10 : 10 ≤ n := by
        rcases Nat.lt_or_ge n 10 with h | h
        · exact absurd (Nat.div_eq_of_lt h) hz
        · exact h
      have hk2 : 2 ≤ k := by
        by_contra hcon
        interval_cases k <;> omega
      have hdiv : n / 10 < 10 ^ (k - 1) := by
        rw [Nat.div_lt_iff_lt_mul (by norm_num)]
        calc n < 10 ^ k := hk
        _ = 10 ^ (k - 1) * 10 := by
          rw [← pow_succ]
          congr 1
          omega
      have := ih (n / 10) (Nat.digitChar (n % 10) :: acc) (k - 1) hdiv
      simp only [List.length_cons] at this
      omega

lemma zeroPad4_toList (n : ℕ) :
    (zeroPad4 n).toList
      = List.replicate (4 - (Nat.toDigits 10 n).length) '0' ++ Nat.toDigits 10 n := by
  rfl

lemma zeroPad4_good (n : ℕ) :
    ∀ c ∈ (zeroPad4 n).toList, c.isDigit = true ∧ c.toNat < 128 := by
  rw [zeroPad4_toList]
  intro c hc
  rcases List.mem_append.mp hc with hc | hc
  · rw [List.eq_of_mem_replicate hc]
    exact ⟨by decide, by decide⟩
  · exact toDigitsCore_good (n + 1) n [] (by simp) c hc

lemma zeroPad4_len {n : ℕ} (hn : n < 10000) : (zeroPad4 n).toList.length = 4 := by
  rw [zeroPad4_toList]
  have h1 : (Nat.toDigits 10 n).length ≤ 4 := by
    have := toDigitsCore_len (n + 1) n [] 4 (by omega)
    simpa using this
  rw [List.length_append, List.length_replicate]
  omega

lemma collapseUnders_append_no_underscore :
    ∀ (p z : List Char), (∀ c ∈ p, c ≠ '_') →
      collapseUnders (p ++ z) = p ++ collapseUnders z := by
  intro p
  induction p with
  | nil => intro z _; simp
  | cons a p' ih =>
    intro z h
    have ha : a ≠ '_' := h a (List.mem_cons_self _ _)
    have h' : ∀ c ∈ p', c ≠ '_' := fun c hc => h c (List.mem_cons_of_mem _ hc)
    rcases hq : p' ++ z with _ | ⟨w, t⟩
    · obtain ⟨h1, h2⟩ := List.append_eq_nil.mp hq
      subst h1; subst h2
      simp [collapseUnders]
    · show collapseUnders (a :: (p' ++ z)) = _
      rw [hq, collapseUnders, if_neg (fun hand => ha hand.1), ← hq, ih z h']
      rfl

lemma dropWhile_cons_neg {pred : Char → Bool} {a : Char} {l : List Char}
    (h : pred a = false) : (a :: l).dropWhile pred = a :: l := by
  rw [List.dropWhile_cons, h]
  simp

lemma dropWhile_eq_self_of_neg {pred : Char → Bool} :
    ∀ {l : List Char}, (∀ c ∈ l, pred c = false) → l.dropWhile pred = l := by
  intro l h
  cases l with
  | nil => rfl
  | cons a t => exact dropWhile_cons_neg (h a (List.mem_cons_self _ _))

lemma pyStrip_append_digits (p z : List Char) (hp : p ≠ [])
    (h : ∀ c ∈ p, c ≠ '_') :
    pyStrip (p ++ z) '_' = p ++ (z.reverse.dropWhile (fun x => x = '_')).reverse := by
  rcases p with _ | ⟨a, p'⟩
  · exact absurd rfl hp
  · have ha : decide (a = '_') = false := by
      simpa using h a (List.mem_cons_self _ _)
    unfold pyStrip
    rw [List.cons_append, dropWhile_cons_neg ha, ← List.cons_append,
      List.reverse_append, List.dropWhile_append]
    have hall : List.dropWhile (fun x => decide (x = '_')) (a :: p').reverse
        = (a :: p').reverse := by
      apply dropWhile_eq_self_of_neg
      intro c hc
      simpa using h c (List.mem_reverse.mp hc)
    by_cases he : (List.dropWhile (fun x => decide (x = '_')) z.reverse).isEmpty
    · rw [if_pos he, hall, List.reverse_reverse]
      rw [List.isEmpty_iff] at he
      rw [he]
      simp
    · rw [if_neg he, List.reverse_append, List.reverse_reverse]

lemma sanitizeBody_digit_prefix (p z : List Char)
    (hp : p ≠ []) (hd : ∀ c ∈ p, c.isDigit = true) :
    ∃ r : List Char, sanitizeBody (p ++ '_' :: z) = p ++ r := by
  unfold sanitizeBody
  have hfp : (p ++ '_' :: z).filter keepChar = p ++ '_' :: z.filter keepChar := by
    rw [List.filter_append]
    congr 1
    exact List.filter_eq_self.mpr (fun c hc => digit_keep (hd c hc))
  rw [hfp]
  have hnu : ∀ c ∈ p, c ≠ '_' := fun c hc => digit_ne_underscore (hd c hc)
  rw [collapseUnders_append_no_underscore p ('_' :: z.filter keepChar) hnu]
  rw [pyStrip_append_digits p _ hp hnu]
  exact ⟨_, rfl⟩

lemma filenameParts_shape (n : ℕ) (services : Finset String)
    (purpose trigger : String) :
    ∃ (x0 : List Char) (xs : List (List Char)),
      filenameParts n services purpose trigger
        = (zeroPad4 n).toList :: x0 :: xs ∧
      ∀ q ∈ x0 :: xs, ∀ c ∈ q,
        (∃ s ∈ services, c ∈ s.toList) ∨ c ∈ ("Manual" : String).toList ∨
          c ∈ purpose.toList ∨ c ∈ trigger.toList := by
  have htake : ∀ q ∈ ((pySortedServices services).take 2).map String.toList,
      ∀ c ∈ q, ∃ s ∈ services, c ∈ s.toList := by
    intro q hq c hc
    obtain ⟨s, hs, rfl⟩ := List.mem_map.mp hq
    exact ⟨s, mem_pySortedServices.mp (List.take_subset 2 _ hs), hc⟩
  have htrig : ∀ q ∈ (if trigger = "Manual" ∨ trigger = "Triggered" then
      ([] : List (List Char)) else [trigger.toList]), ∀ c ∈ q,
      c ∈ trigger.toList := by
    intro q hq c hc
    by_cases h : trigger = "Manual" ∨ trigger = "Triggered"
    · rw [if_pos h] at hq
      exact absurd hq (List.not_mem_nil q)
    · rw [if_neg h] at hq
      rw [List.mem_singleton.mp hq] at hc
      exact hc
  unfold filenameParts
  by_cases hse : ((pySortedServices services).take 2).isEmpty
  · rw [if_pos hse]
    refine ⟨("Manual" : String).toList, [purpose.toList] ++
      (if trigger = "Manual" ∨ trigger = "Triggered" then []
       else [trigger.toList]), rfl, ?_⟩
    intro q hq c hc
    rcases List.mem_cons.mp hq with h | hq2
    · exact Or.inr (Or.inl (h ▸ hc))
    · rcases List.mem_append.mp hq2 with h | h
      · rw [List.mem_singleton.mp h] at hc
        exact Or.inr (Or.inr (Or.inl hc))
      · exact Or.inr (Or.inr (Or.inr (htrig q h c hc)))
  · rw [if_neg hse]
    have hne : ((pySortedServices services).take 2).map String.toList ≠ [] := by
      intro hcon
      rw [List.map_eq_nil_iff] at hcon
      rw [hcon] at hse
      exact hse rfl
    obtain ⟨m0, ms, hm⟩ := List.exists_cons_of_ne_nil hne
    rw [hm]
    refine ⟨m0, ms ++ [purpose.toList] ++
      (if trigger = "Manual" ∨ trigger = "Triggered" then []
       else [trigger.toList]), by simp, ?_⟩
    intro q hq c hc
    rcases List.mem_cons.mp hq with h | hq2
    · exact Or.inl (htake q (h ▸ hm ▸ List.mem_cons_self m0 ms) c hc)
    · rcases List.mem_append.mp hq2 with hq3 | h
      · rcases List.mem_append.mp hq3 with h | h
        · exact Or.inl (htake q (hm ▸ List.mem_cons_of_mem m0 h) c hc)
        · rw [List.mem_singleton.mp h] at hc
          exact Or.inr (Or.inr (Or.inl hc))
      · exact Or.inr (Or.inr (Or.inr (htrig q h c hc)))

/-- C6 counterexample: Python's `\w` is Unicode-aware, so a non-ASCII
word character such as `é` survives `re.sub(r'[^\w\-_]', '', ...)` and
appears in the synthesized filename before the `.json` suffix, outside
`[A-Za-z0-9_-]`. -/
theorem c6_counterexample :
    generateFilename 1 ∅ "Café" "Manual" = "0001_Manual_Café.json" ∧
    'é' ∈ "0001_Manual_Café".toList ∧
    asciiSafe 'é' = false ∧
    "0001_Manual_Café.json".toList = "0001_Manual_Café".toList ++ ".json".toList :=
  ⟨by decide, by decide, by decide, by decide⟩

/-- C6 amended: for every sequence number below 10000 and every service
set, purpose and trigger made of ASCII characters, the synthesized
filename consists of a body of only `[A-Za-z0-9_-]` characters followed
by `.json`, starts with the zero-padded four-digit number, and never
contains any of `@ # $ % &`; for non-ASCII input the `[A-Za-z0-9_-]`
guarantee fails because Python's `\w` also matches non-ASCII word
characters. -/
theorem c6_filename_sanitization
    (n : ℕ) (hn : n < 10000) (services : Finset String)
    (purpose trigger : String)
    (hs : ∀ s ∈ services, asciiString s)
    (hpu : asciiString purpose) (htr : asciiString trigger) :
    (∃ body : List Char,
      (generateFilename n services purpose trigger).toList
        = body ++ ".json".toList ∧ ∀ c ∈ body, asciiSafe c = true) ∧
    (∃ rest : List Char,
      (generateFilename n services purpose trigger).toList
        = (zeroPad4 n).toList ++ rest) ∧
    (zeroPad4 n).toList.length = 4 ∧
    (∀ c ∈ (zeroPad4 n).toList, c.isDigit = true) ∧
    (∀ c ∈ ['@', '#', '$', '%', '&'],
      c ∉ (generateFilename n services purpose trigger).toList) := by
  obtain ⟨x0, xs, hparts, hprov⟩ := filenameParts_shape n services purpose trigger
  have hpadd : ∀ c ∈ (zeroPad4 n).toList, c.isDigit = true :=
    fun c hc => (zeroPad4_good n c hc).1
  have hpadne : (zeroPad4 n).toList ≠ [] := by
    intro hc
    have := zeroPad4_len hn
    rw [hc] at this
    simp at this
  have hjoin : joinUnders (filenameParts n services purpose trigger)
      = (zeroPad4 n).toList ++ '_' :: joinUnders (x0 :: xs) := by
    rw [hparts]
    rfl
  have hascii : ∀ c ∈ joinUnders (filenameParts n services purpose trigger),
      c.toNat < 128 := by
    intro c hc
    rcases mem_joinUnders hc with h | ⟨q, hq, hcq⟩
    · rw [h]; decide
    · rw [hparts] at hq
      rcases List.mem_cons.mp hq with h | hq2
      · exact (zeroPad4_good n c (h ▸ hcq)).2
      · rcases hprov q hq2 c hcq with ⟨s, hsm, hcs⟩ | h | h | h
        · exact hs s hsm c hcs
        · exact (by decide : asciiString "Manual") c h
        · exact hpu c h
        · exact htr c h
  have htl : (generateFilename n services purpose trigger).toList
      = sanitizeBody (joinUnders (filenameParts n services purpose trigger))
        ++ ".json".toList := rfl
  refine ⟨⟨sanitizeBody (joinUnders (filenameParts n services purpose trigger)),
      htl, ?_⟩, ?_, zeroPad4_len hn, hpadd, ?_⟩
  · intro c hc
    obtain ⟨hk, hmem⟩ := mem_sanitizeBody hc
    exact ascii_keep_asciiSafe (hascii c hmem) hk
  · rw [htl, hjoin]
    obtain ⟨r, hr⟩ := sanitizeBody_digit_prefix _ (joinUnders (x0 :: xs))
      hpadne hpadd
    rw [hr, List.append_assoc]
    exact ⟨_, rfl⟩
  · intro c hc habs
    rw [htl] at habs
    rcases List.mem_append.mp habs with h | h
    · have hk := (mem_sanitizeBody h).1
      fin_cases hc <;> exact absurd hk (by decide)
    · fin_cases hc <;> exact absurd h (by decide)

/-- C6 witness: the sanitization guarantee at a concrete ASCII input
containing the characters `@ # $`. -/
theorem c6_filename_sanitization_witness :
    (zeroPad4 3).toList.length = 4 ∧
    (∀ c ∈ ['@', '#', '$', '%', '&'],
      c ∉ (generateFilename 3 {"Gmail@"} "Se#nd$" "Webhook").toList) :=
  ⟨(c6_filename_sanitization 3 (by decide) {"Gmail@"} "Se#nd$" "Webhook"
      (by decide) (by decide) (by decide)).2.2.1,
   (c6_filename_sanitization 3 (by decide) {"Gmail@"} "Se#nd$" "Webhook"
      (by decide) (by decide) (by decide)).2.2.2.2⟩
